import Mathlib

/-!
Verification development for the `llm-go` CLI (shorthand format compiler,
provider registry, provider payload/request builders, and the orchestrator's
error-gating / single-key extraction logic).

The Go sources are shallowly embedded:
* `map[string]interface{}` property maps produced by the shorthand compiler are
  association lists `List (String × FieldSchema)`; the compiler only ever
  stores the two shapes captured by `FieldSchema`.
* generic JSON values (provider payloads, decoded model responses) are `JVal`.
* the ambient environment (`os.Getenv`) is a function `String → String`.
* results of fallible Go functions `(T, error)` are `Except` values.
* the Go `strings` operations used by the sources are implemented here as
  structural recursions over character lists, so that every definition
  evaluates inside the kernel.
-/

/-- Whitespace as trimmed by `strings.TrimSpace` (the ASCII portion:
tab, newline, vertical tab, form feed, carriage return, space). -/
def isWS (c : Char) : Bool :=
  c.toNat = 9 || c.toNat = 10 || c.toNat = 11 || c.toNat = 12 ||
  c.toNat = 13 || c.toNat = 32

def dropWhileWS : List Char → List Char
  | [] => []
  | c :: t => if isWS c then dropWhileWS t else c :: t

/-- Trim leading and trailing whitespace from a character list. -/
def chTrim (l : List Char) : List Char :=
  (dropWhileWS (dropWhileWS l).reverse).reverse

/-- `strings.TrimSpace`. -/
def strTrim (s : String) : String := String.mk (chTrim s.data)

/-- `strings.Split(s, sep)` for a one-character separator: empty segments
are kept, and the empty input yields one empty segment. -/
def splitOnChar (sep : Char) : List Char → List (List Char)
  | [] => [[]]
  | c :: cs =>
      if c = sep then [] :: splitOnChar sep cs
      else
        match splitOnChar sep cs with
        | h :: t => (c :: h) :: t
        | [] => [[c]]

def strSplitComma (s : String) : List String :=
  (splitOnChar ',' s.data).map String.mk

/-- `true` when the pattern is a leading segment of the character list. -/
def leadsWith : List Char → List Char → Bool
  | [], _ => true
  | _ :: _, [] => false
  | p :: ps, c :: cs => p = c && leadsWith ps cs

/-- `true` when the pattern occurs contiguously somewhere in the list
(`strings.Contains` on character lists). -/
def hasSegment (pat : List Char) : List Char → Bool
  | [] => leadsWith pat []
  | c :: cs => leadsWith pat (c :: cs) || hasSegment pat cs

/-- `strings.Contains(s, pat)`. -/
def strHas (s pat : String) : Bool := hasSegment pat.data s.data

/-- `strings.HasSuffix(s, suffix)`. -/
def strEndsWith (s suffix : String) : Bool :=
  leadsWith suffix.data.reverse s.data.reverse

/-- Drop the last `n` characters (`strings.TrimSuffix` uses this with the
suffix length once the suffix is known to be present). -/
def strDropRight (s : String) (n : Nat) : String :=
  String.mk (s.data.reverse.drop n).reverse

/-- `strings.ToLower` (ASCII; the data handled here is ASCII). -/
def strToLower (s : String) : String := String.mk (s.data.map Char.toLower)

/-- `strings.ToUpper` (ASCII). -/
def strToUpper (s : String) : String := String.mk (s.data.map Char.toUpper)

/-- `strings.TrimRight(s, "/")`: drop every trailing slash. -/
def dropLeadingSlashes : List Char → List Char
  | [] => []
  | c :: t => if c = '/' then dropLeadingSlashes t else c :: t

def trimTrailingSlashes (s : String) : String :=
  String.mk (dropLeadingSlashes s.data.reverse).reverse

/-- `strings.SplitN(s, ":", 2)` on the character list: text before the first
colon, and (when a colon exists) everything after it. -/
def splitFirstColon : List Char → List Char × Option (List Char)
  | [] => ([], none)
  | c :: cs =>
      if c = ':' then ([], some cs)
      else
        let r := splitFirstColon cs
        (c :: r.1, r.2)

/-- `strings.Join(elems, sep)`. -/
def joinSep (sep : String) : List String → String
  | [] => ""
  | [x] => x
  | x :: xs => x ++ sep ++ joinSep sep xs

/-- The two property shapes the shorthand compiler emits into the properties
map: `{"type": t}` for scalars and `{"type": "array", "items": {"type": e}}`
for arrays. -/
inductive FieldSchema where
  | scalar (type_ : String)
  | array (elem : String)
  deriving DecidableEq, Repr

abbrev Props := List (String × FieldSchema)

/-- Go map read on an association list: first binding of the key wins
(the lists we build keep keys unique, matching `map[string]interface{}`). -/
def lookupKey {α : Type} : List (String × α) → String → Option α
  | [], _ => none
  | (k', v) :: t, k => if k' = k then some v else lookupKey t k

/-- Go map write `m[k] = v`: replace the binding if the key exists, else add. -/
def upsert {α : Type} : List (String × α) → String → α → List (String × α)
  | [], k, v => [(k, v)]
  | (k', v') :: t, k, v =>
      if k' = k then (k', v) :: t else (k', v') :: upsert t k v

namespace Parser

/-- One comma-separated pair of the shorthand, as handled by the loop body of
`ParseFormat` in `src/pkg/parser/format.go` (type[] arrays only). -/
def parsePair (props : Props) (pair : String) : Except String Props :=
  let trimmed := strTrim pair
  if trimmed = "" then .error ("invalid format pair: " ++ pair)
  else
    let parts := splitFirstColon trimmed.data
    let key := strTrim (String.mk parts.1)
    let typeStrE : Except String String :=
      match parts.2 with
      | none => .ok "string"
      | some rest =>
          if rest.contains ':' then .error ("invalid format pair: " ++ pair)
          else
            let ts := strTrim (String.mk rest)
            .ok (if ts ≠ "" then ts else "string")
    match typeStrE with
    | .error e => .error e
    | .ok typeStr =>
      if key = "" then .error ("empty key in format pair: " ++ pair)
      else if strEndsWith typeStr "[]" then
        let elementType := strTrim (strDropRight typeStr 2)
        if elementType = "" then
          .error ("empty element type in array specification: " ++ typeStr)
        else if strEndsWith elementType "[]" then
          .error ("nested array types are not supported: " ++ typeStr)
        else .ok (upsert props key (.array elementType))
      else .ok (upsert props key (.scalar typeStr))

/-- `ParseFormat` from `src/pkg/parser/format.go`: the empty string yields the
built-in default `message` field; otherwise each comma-separated pair is
parsed, later pairs overwriting earlier ones with the same key. -/
def ParseFormat (format : String) : Except String Props :=
  if format = "" then .ok [("message", .scalar "string")]
  else (strSplitComma format).foldlM parsePair []

/-- Loop body of the `ParseFormat` variant in `src/unnamed/part_006`, which
additionally accepts the `key[]` shorthand on the key side. -/
def parsePairKeyArr (props : Props) (pair : String) : Except String Props :=
  let trimmed := strTrim pair
  if trimmed = "" then .error ("invalid format pair: " ++ pair)
  else
    let parts := splitFirstColon trimmed.data
    let key0 := strTrim (String.mk parts.1)
    let keyIsArr := strEndsWith key0 "[]"
    let key := if keyIsArr then strTrim (strDropRight key0 2) else key0
    let typeStrE : Except String String :=
      match parts.2 with
      | none => .ok "string"
      | some rest =>
          if rest.contains ':' then .error ("invalid format pair: " ++ pair)
          else
            let ts := strTrim (String.mk rest)
            .ok (if ts ≠ "" then ts else "string")
    match typeStrE with
    | .error e => .error e
    | .ok typeStr =>
      if key = "" then .error ("empty key in format pair: " ++ pair)
      else if keyIsArr ∧ strEndsWith typeStr "[]" then
        .error ("nested array types are not supported: " ++ trimmed)
      else if keyIsArr then
        let elementType := strTrim typeStr
        let elementType := if elementType = "" then "string" else elementType
        if strEndsWith elementType "[]" then
          .error ("nested array types are not supported: " ++ trimmed)
        else .ok (upsert props key (.array elementType))
      else if strEndsWith typeStr "[]" then
        let elementType := strTrim (strDropRight typeStr 2)
        if elementType = "" then
          .error ("empty element type in array specification: " ++ typeStr)
        else if strEndsWith elementType "[]" then
          .error ("nested array types are not supported: " ++ typeStr)
        else .ok (upsert props key (.array elementType))
      else .ok (upsert props key (.scalar typeStr))

/-- `ParseFormat` from `src/unnamed/part_006`: the empty string yields an
empty properties map (no built-in default field). -/
def ParseFormatKeyArr (format : String) : Except String Props :=
  if format = "" then .ok []
  else (strSplitComma format).foldlM parsePairKeyArr []

/-- `true` exactly on the error results of the compiler. -/
def isErr {ε α : Type} : Except ε α → Bool
  | .error _ => true
  | .ok _ => false

end Parser

/-- Generic JSON value, the embedding of Go `interface{}` JSON data.
Numbers are modeled as integers (every number occurring in this development
is integral; `encoding/json` prints integral `float64` without a decimal
point, matching `Int` printing). -/
inductive JVal where
  | str (s : String)
  | num (n : Int)
  | bool (b : Bool)
  | null
  | arr (xs : List JVal)
  | obj (fields : List (String × JVal))

/-- Object member access on a JSON value. -/
def jGet (j : JVal) (k : String) : Option JVal :=
  match j with
  | .obj fields => lookupKey fields k
  | _ => none

/-- Member access along a path of object keys. -/
def jGetPath : JVal → List String → Option JVal
  | j, [] => some j
  | j, k :: ks =>
      match jGet j k with
      | some v => jGetPath v ks
      | none => none

/-- Hex digit (lowercase), used by the `\u00XX` escapes of `encoding/json`. -/
def hexDigit (n : Nat) : Char :=
  if n < 10 then Char.ofNat ('0'.toNat + n) else Char.ofNat ('a'.toNat + n - 10)

/-- Escape of one character, mirroring `encoding/json` string encoding with
its default HTML escaping (`<`, `>`, `&` become `<`, `>`,
`&`). -/
def escChar (c : Char) : String :=
  if c = '"' then "\\\""
  else if c = '\\' then "\\\\"
  else if c = '\n' then "\\n"
  else if c = '\r' then "\\r"
  else if c = '\t' then "\\t"
  else if c = '<' then "\\u003c"
  else if c = '>' then "\\u003e"
  else if c = '&' then "\\u0026"
  else if c.toNat < 0x20 then
    "\\u00" ++ String.mk [hexDigit (c.toNat / 16), hexDigit (c.toNat % 16)]
  else if c.toNat = 0x2028 then "\\u2028"
  else if c.toNat = 0x2029 then "\\u2029"
  else String.singleton c

/-- JSON string-body escaping. -/
def escapeJson (s : String) : String :=
  s.data.foldl (fun acc c => acc ++ escChar c) ""

mutual

/-- Key-sorting normalization: `encoding/json` marshals Go maps with sorted
keys, so marshaling a decoded value sorts every object. -/
def sortDeep : JVal → JVal
  | .str s => .str s
  | .num n => .num n
  | .bool b => .bool b
  | .null => .null
  | .arr xs => .arr (sortDeepArr xs)
  | .obj fs =>
      .obj (List.insertionSort (fun a b : String × JVal => a.1 ≤ b.1) (sortDeepObj fs))

def sortDeepArr : List JVal → List JVal
  | [] => []
  | x :: xs => sortDeep x :: sortDeepArr xs

def sortDeepObj : List (String × JVal) → List (String × JVal)
  | [] => []
  | (k, v) :: fs => (k, sortDeep v) :: sortDeepObj fs

end

mutual

/-- Compact JSON serialization (no added whitespace), as `json.Marshal`
prints it; object members are emitted in list order. -/
def jsonCompact : JVal → String
  | .str s => "\"" ++ escapeJson s ++ "\""
  | .num n => toString n
  | .bool b => if b then "true" else "false"
  | .null => "null"
  | .arr xs => "[" ++ joinSep "," (jsonCompactArr xs) ++ "]"
  | .obj fs => "\x7b" ++ joinSep "," (jsonCompactObj fs) ++ "\x7d"

def jsonCompactArr : List JVal → List String
  | [] => []
  | x :: xs => jsonCompact x :: jsonCompactArr xs

def jsonCompactObj : List (String × JVal) → List String
  | [] => []
  | (k, v) :: fs => ("\"" ++ escapeJson k ++ "\":" ++ jsonCompact v) :: jsonCompactObj fs

end

/-- `json.Marshal` of a decoded value: maps are marshaled with sorted keys. -/
def jsonMarshal (v : JVal) : String := jsonCompact (sortDeep v)

namespace Provider

/-- The three concrete implementations the registry can return. -/
inductive ProviderKind where
  | openai
  | anthropic
  | gemini
  deriving DecidableEq, Repr

/-- Errors of the provider package: the typed unknown-provider and
missing-API-key errors from `provider.go`, and untyped `fmt.Errorf` values
carried as their message. -/
inductive ProviderError where
  | unknownProvider (name : String)
  | missingAPIKey (provider envVar : String)
  | generic (msg : String)
  deriving DecidableEq, Repr

/-- `Error()` of the error values (`ErrUnknownProvider.Error`,
`MissingAPIKeyError.Error`, and the message of a plain error). -/
def errorMessage : ProviderError → String
  | .unknownProvider name => "unknown provider: " ++ name
  | .missingAPIKey prov envVar =>
      if prov ≠ "" ∧ envVar ≠ "" then prov ++ ": " ++ envVar ++ " is not set"
      else if envVar ≠ "" then envVar ++ " is not set"
      else "missing API key"
  | .generic msg => msg

/-- `true` exactly on the typed missing-credential failure
(what `errors.Is(err, ErrMissingAPIKey)` detects via `Unwrap`). -/
def isMissingAPIKeyErr {α : Type} : Except ProviderError α → Bool
  | .error (.missingAPIKey _ _) => true
  | _ => false

/-- `provider.New` from `src/pkg/provider/provider.go`: alias lookup with a
typed unknown-provider failure on the default branch. -/
def New (name : String) : Except ProviderError ProviderKind :=
  if name = "openai" ∨ name = "oa" ∨ name = "default" ∨ name = "" then
    .ok .openai
  else if name = "anthropic" ∨ name = "claude" ∨ name = "anth" then
    .ok .anthropic
  else if name = "gemini" ∨ name = "google" ∨ name = "gai" then
    .ok .gemini
  else .error (.unknownProvider name)

/-- Every string the registry's switch accepts. -/
def knownNames : List String :=
  ["openai", "oa", "default", "", "anthropic", "claude", "anth",
   "gemini", "google", "gai"]

/-- What the CLI layer (error-key variant of `rootCmd.Run`) prints when
`errors.As` recognizes `ErrUnknownProvider`: the supported-provider list. -/
def cliUnknownProviderMessage (name : String) : String :=
  "unknown provider: " ++ name ++
    "\nSupported providers: openai, openai-compat, anthropic, gemini\n"

/-- `provider.Options`. -/
structure Options where
  Model : String := ""
  Instructions : String := ""
  Message : String := ""
  Verbosity : String := ""
  ReasoningEffort : String := ""
  Properties : Props := []
  MaxTokens : Int := 0

/-- `provider.RequestOptions`; extra headers are listed in application
order (the Go map iteration order is unspecified). -/
structure RequestOptions where
  APIKey : String := ""
  ExtraHeaders : List (String × String) := []

/-- Environment lookup (`os.Getenv`). -/
abbrev Env := String → String

/-- The HTTP request a provider builds. The URL is the concatenation the Go
code performs (path/query escaping by `net/url` is external and the inputs
used here need no escaping); the body is the `json.Marshal` of the payload. -/
structure HttpRequest where
  method : String
  url : String
  headers : List (String × String)
  body : String

/-- `req.Header.Set` (replace-or-add). -/
def headerSet (hs : List (String × String)) (k v : String) :
    List (String × String) :=
  upsert hs k v

/-- The trailing loop of every `BuildAPIRequest`: apply the extra headers,
skipping pairs with an empty name or value. -/
def applyExtraHeaders (hs : List (String × String))
    (extras : List (String × String)) : List (String × String) :=
  extras.foldl (fun acc kv =>
    if kv.1 = "" ∨ kv.2 = "" then acc else headerSet acc kv.1 kv.2) hs

/-- JSON rendering of one property-map entry (the shapes `ParseFormat`
stores, passed through verbatim by the OpenAI payload builder). -/
def fieldSchemaJson : FieldSchema → JVal
  | .scalar t => .obj [("type", .str t)]
  | .array e => .obj [("type", .str "array"), ("items", .obj [("type", .str e)])]

/-- `sort.Strings`: ascending sort of a key list. -/
def sortStrings (l : List String) : List String :=
  List.insertionSort (· ≤ ·) l

/-- `strings.EqualFold` restricted to the ASCII data that occurs here. -/
def eqFold (a b : String) : Bool := strToLower a = strToLower b

namespace OpenAI

/-- `OpenAIProvider.DefaultOptions`. -/
def DefaultOptions : Options := { Model := "gpt-5-nano" }

/-- `OpenAIProvider.BuildAPIPayload` from `src/unnamed/part_002`: embeds the
strict JSON schema (all keys required, no additional properties) when the
property map is non-empty. `required` is listed in property-list order
(the Go code ranges over the map in unspecified order). -/
def BuildAPIPayload (opts : Options) : List (String × JVal) :=
  let textPayload : List (String × JVal) := [("verbosity", .str opts.Verbosity)]
  let textPayload :=
    if opts.Properties ≠ [] then
      textPayload ++ [("format", JVal.obj [
        ("type", .str "json_schema"),
        ("name", .str "response"),
        ("strict", .bool true),
        ("schema", JVal.obj [
          ("type", .str "object"),
          ("properties",
            JVal.obj (opts.Properties.map fun p => (p.1, fieldSchemaJson p.2))),
          ("required", JVal.arr (opts.Properties.map fun p => JVal.str p.1)),
          ("additionalProperties", .bool false)])])]
    else textPayload
  let payload : List (String × JVal) :=
    [("model", .str opts.Model),
     ("instructions", .str opts.Instructions),
     ("input", .str opts.Message),
     ("store", .bool false),
     ("text", JVal.obj textPayload),
     ("reasoning", JVal.obj [("effort", .str opts.ReasoningEffort)])]
  if opts.MaxTokens > 0 then payload ++ [("max_output_tokens", .num opts.MaxTokens)]
  else payload

/-- `OpenAIProvider.BuildAPIRequest` from `src/unnamed/part_002`: note the
missing-key failure is a plain `fmt.Errorf`, not `MissingAPIKeyError`. -/
def BuildAPIRequest (payload : List (String × JVal)) (baseURL : String)
    (reqOpts : RequestOptions) (env : Env) : Except ProviderError HttpRequest :=
  let body := jsonMarshal (JVal.obj payload)
  let base := if baseURL = "" then "https://api.openai.com/v1" else baseURL
  let url := trimTrailingSlashes base ++ "/responses"
  let apiKey := if reqOpts.APIKey = "" then env "OPENAI_API_KEY" else reqOpts.APIKey
  if apiKey = "" then .error (.generic "OPENAI_API_KEY is not set")
  else
    let headers := [("Content-Type", "application/json"),
                    ("Accept", "application/json"),
                    ("Authorization", "Bearer " ++ apiKey)]
    .ok { method := "POST", url := url,
          headers := applyExtraHeaders headers reqOpts.ExtraHeaders,
          body := body }

end OpenAI

namespace Anthropic

/-- `anthropicDefaultMaxTokens` from `src/pkg/provider/anthropic.go`. -/
def defaultMaxTokens (model : String) : Int :=
  let m := strToLower model
  if strHas m "opus-4-1" then 32000
  else if strHas m "opus-4" then 32000
  else if strHas m "sonnet-4-0" || strHas m "sonnet-4" then 64000
  else if strHas m "3-7-sonnet" then 64000
  else if strHas m "3-5-sonnet" then 8192
  else if strHas m "3-5-haiku" || strHas m "haiku-latest" then 8192
  else if strHas m "3-haiku" then 4096
  else 4096

/-- `AnthropicProvider.DefaultOptions`. -/
def DefaultOptions : Options :=
  { Model := "claude-3-5-haiku-latest",
    MaxTokens := defaultMaxTokens "claude-3-5-haiku-latest" }

/-- Best-effort type label of a property entry in the system-prompt hint:
`array<elem>` for arrays (the compiler always stores the `items` shape),
the type string verbatim otherwise — except that a scalar literally spelled
like `array` falls back to `string` because the items lookup fails. -/
def typeLabel : Option FieldSchema → String
  | some (.scalar t) => if eqFold t "array" then "string" else t
  | some (.array e) => "array<" ++ e ++ ">"
  | none => "string"

/-- The strict-JSON schema hint `AnthropicProvider.BuildAPIPayload` appends
to the system prompt: field names are sorted before rendering. -/
def systemHint (props : Props) : String :=
  let keys := sortStrings (props.map Prod.fst)
  "Return only a strict JSON object with keys " ++ joinSep ", " keys ++
    ". No prose, no explanations, no markdown. All keys are required. Types: " ++
    joinSep ", " (keys.map fun k => k ++ ": " ++ typeLabel (lookupKey props k))

/-- `AnthropicProvider.BuildAPIPayload` from `src/pkg/provider/anthropic.go`. -/
def BuildAPIPayload (opts : Options) : List (String × JVal) :=
  let payload : List (String × JVal) :=
    [("model", .str opts.Model),
     ("max_tokens", .num opts.MaxTokens),
     ("messages", JVal.arr [JVal.obj
       [("role", .str "user"), ("content", .str opts.Message)]])]
  let payload :=
    if strTrim opts.Instructions ≠ "" then
      upsert payload "system" (.str opts.Instructions)
    else payload
  if opts.Properties ≠ [] then
    let sys := systemHint opts.Properties
    match lookupKey payload "system" with
    | some (.str s) =>
        if strTrim s ≠ "" then upsert payload "system" (.str (s ++ "\n\n" ++ sys))
        else upsert payload "system" (.str sys)
    | _ => upsert payload "system" (.str sys)
  else payload

/-- `AnthropicProvider.BuildAPIRequest` from `src/pkg/provider/anthropic.go`:
returns the typed `MissingAPIKeyError` when no credential is available. -/
def BuildAPIRequest (payload : List (String × JVal)) (baseURL : String)
    (reqOpts : RequestOptions) (env : Env) : Except ProviderError HttpRequest :=
  let body := jsonMarshal (JVal.obj payload)
  let base := if baseURL = "" then "https://api.anthropic.com/v1" else baseURL
  let url := trimTrailingSlashes base ++ "/messages"
  let headers := [("Content-Type", "application/json"),
                  ("Accept", "application/json"),
                  ("anthropic-version", "2023-06-01")]
  let apiKey := if reqOpts.APIKey = "" then env "ANTHROPIC_API_KEY" else reqOpts.APIKey
  if apiKey = "" then .error (.missingAPIKey "anthropic" "ANTHROPIC_API_KEY")
  else
    .ok { method := "POST", url := url,
          headers := applyExtraHeaders (headerSet headers "x-api-key" apiKey)
            reqOpts.ExtraHeaders,
          body := body }

end Anthropic

namespace Gemini

/-- `GeminiProvider.DefaultOptions`. -/
def DefaultOptions : Options := { Model := "gemini-2.0-flash" }

/-- `toGeminiType` from `src/unnamed/part_003`: known scalar kinds map to
their upper-cased tags; anything else is upper-cased best-effort (empty
falls back to `STRING`). -/
def toGeminiType (t : String) : String :=
  let key := strToLower (strTrim t)
  if key = "string" then "STRING"
  else if key = "integer" then "INTEGER"
  else if key = "number" then "NUMBER"
  else if key = "boolean" then "BOOLEAN"
  else if key = "object" then "OBJECT"
  else if key = "array" then "ARRAY"
  else if t = "" then "STRING"
  else strToUpper t

/-- `convertGeminiSchemaForProperty` from `src/unnamed/part_003`. A scalar
whose type string case-folds to `array` reaches the array branch but finds
no `items`, so its schema carries only the `ARRAY` tag. -/
def convertGeminiSchemaForProperty : FieldSchema → JVal
  | .scalar t =>
      if strToLower t = "array" then JVal.obj [("type", .str "ARRAY")]
      else JVal.obj [("type", .str (toGeminiType t))]
  | .array e =>
      if e ≠ "" then
        JVal.obj [("type", .str "ARRAY"),
                  ("items", JVal.obj [("type", .str (toGeminiType e))])]
      else JVal.obj [("type", .str "ARRAY")]

/-- `buildGeminiObjectSchema` from `src/unnamed/part_003`: every property is
converted and every property name is required (listed here in property-list
order; the Go code ranges over the map in unspecified order). -/
def buildGeminiObjectSchema (props : Props) : JVal :=
  JVal.obj
    [("type", .str "OBJECT"),
     ("properties",
       JVal.obj (props.map fun p => (p.1, convertGeminiSchemaForProperty p.2))),
     ("required", JVal.arr (props.map fun p => JVal.str p.1))]

/-- `GeminiProvider.BuildAPIPayload` from `src/unnamed/part_003`. -/
def BuildAPIPayload (opts : Options) : List (String × JVal) :=
  let contents := JVal.arr [JVal.obj
    [("parts", JVal.arr [JVal.obj [("text", .str opts.Message)]])]]
  let payload : List (String × JVal) :=
    [("model", .str opts.Model), ("contents", contents)]
  let payload :=
    if strTrim opts.Instructions ≠ "" then
      payload ++ [("systemInstruction", JVal.obj
        [("parts", JVal.arr [JVal.obj [("text", .str opts.Instructions)]])])]
    else payload
  let genCfg : List (String × JVal) := []
  let genCfg :=
    if opts.MaxTokens > 0 then genCfg ++ [("maxOutputTokens", .num opts.MaxTokens)]
    else genCfg
  let genCfg :=
    if opts.Properties ≠ [] then
      genCfg ++ [("responseMimeType", .str "application/json"),
                 ("responseSchema", buildGeminiObjectSchema opts.Properties)]
    else genCfg
  if genCfg.isEmpty then payload
  else payload ++ [("generationConfig", JVal.obj genCfg)]

/-- Drop a key from an assoc list (`delete(payload, "model")`). -/
def removeKey {α : Type} : List (String × α) → String → List (String × α)
  | [], _ => []
  | (k', v) :: t, k => if k' = k then t else (k', v) :: removeKey t k

/-- `GeminiProvider.BuildAPIRequest` from `src/unnamed/part_003`: the model
moves from the body into the URL path, the credential into the `key` query
parameter; a missing credential is the typed `MissingAPIKeyError`. -/
def BuildAPIRequest (payload : List (String × JVal)) (baseURL : String)
    (reqOpts : RequestOptions) (env : Env) : Except ProviderError HttpRequest :=
  let model := match lookupKey payload "model" with
    | some (.str s) => s
    | _ => ""
  let payload := removeKey payload "model"
  if strTrim model = "" then .error (.generic "gemini: model is required")
  else
    let body := jsonMarshal (JVal.obj payload)
    let base := if baseURL = "" then "https://generativelanguage.googleapis.com"
      else baseURL
    let urlNoKey := trimTrailingSlashes base ++ "/v1beta/models/" ++ model ++
      ":generateContent"
    let apiKey := if reqOpts.APIKey = "" then env "GEMINI_API_KEY" else reqOpts.APIKey
    if apiKey = "" then .error (.missingAPIKey "gemini" "GEMINI_API_KEY")
    else
      .ok { method := "POST", url := urlNoKey ++ "?key=" ++ apiKey,
            headers := applyExtraHeaders
              [("Content-Type", "application/json"),
               ("Accept", "application/json")] reqOpts.ExtraHeaders,
            body := body }

end Gemini

namespace OpenAICompat

/-- `OpenAICompatProvider.BuildAPIRequest` from
`src/pkg/provider/openai_compat.go` (credential handling only differs from
the OpenAI provider in producing the typed `MissingAPIKeyError`). -/
def BuildAPIRequest (payload : List (String × JVal)) (baseURL : String)
    (reqOpts : RequestOptions) (env : Env) : Except ProviderError HttpRequest :=
  let body := jsonMarshal (JVal.obj payload)
  let base := if baseURL = "" then "https://api.openai.com/v1" else baseURL
  let url := trimTrailingSlashes base ++ "/chat/completions"
  let apiKey := if reqOpts.APIKey = "" then env "OPENAI_API_KEY" else reqOpts.APIKey
  if apiKey = "" then .error (.missingAPIKey "openai-compat" "OPENAI_API_KEY")
  else
    .ok { method := "POST", url := url,
          headers := applyExtraHeaders
            [("Content-Type", "application/json"),
             ("Accept", "application/json"),
             ("Authorization", "Bearer " ++ apiKey)] reqOpts.ExtraHeaders,
          body := body }

end OpenAICompat

end Provider

namespace Cmd

/-- The JSON object decoded from the provider's response text. `none` stands
for a failing `json.Unmarshal` into `map[string]interface{}` (the text is not
valid JSON, or is valid JSON that is not an object); `encoding/json` is
external library code, so its outcome is an input of the model. -/
abbrev Decoded := Option (List (String × JVal))

/-- Outcome of the error-field gate in the error-key variant of
`rootCmd.Run` (`src/unnamed/part_008`). -/
inductive GateOutcome where
  | proceed
  | failDiagnostic (msg : String)
  | failSilent
  deriving DecidableEq, Repr

/-- The error-field gate (`src/unnamed/part_008`, error-key variant): after
a successful provider parse, decode the text once; on decode failure exit
non-zero (silently); when the configured error key holds a string whose
trimmed value is non-empty and not `"null"`, print that trimmed value to
stderr and exit non-zero; otherwise proceed to normal output. -/
def errorGate (decoded : Decoded) (errorKey : String) : GateOutcome :=
  match decoded with
  | none => .failSilent
  | some obj =>
      match lookupKey obj errorKey with
      | some (.str s) =>
          let es := strTrim s
          if es ≠ "" ∧ es ≠ "null" then .failDiagnostic es else .proceed
      | some _ => .proceed
      | none => .proceed

/-- Outcome of the `--only` single-key extraction in `rootCmd.Run`
(`src/cmd/root.go`, lines 152-179). -/
inductive OnlyResult where
  | emit (text : String)
  | errNotJson
  | errKeyNotFound (key : String)
  deriving DecidableEq, Repr

/-- The message printed for a decode failure (prefix of the dynamic
`json.Unmarshal` error text). -/
def onlyNotJsonMessage : String :=
  "--only requires structured JSON output; failed to parse JSON:"

/-- The message printed for a missing key. -/
def onlyKeyNotFoundMessage (key : String) : String :=
  "key not found: " ++ key

/-- The `--only` extraction (`src/cmd/root.go`, lines 152-179), applied when
the caller requested a single output key: the response text must decode as a
JSON object; the key must exist; a string value replaces the output text
verbatim; every other value is re-marshaled compactly. -/
def onlyExtract (decoded : Decoded) (onlyKey : String) : OnlyResult :=
  match decoded with
  | none => .errNotJson
  | some obj =>
      match lookupKey obj onlyKey with
      | none => .errKeyNotFound onlyKey
      | some (.str s) => .emit s
      | some v => .emit (jsonMarshal v)

end Cmd

/-- Sample Strict-Schema payload for the field set `{name:string, age:integer}`
(the spec's concrete example for the OpenAI-style provider). -/
def openAISamplePayload : JVal :=
  JVal.obj (Provider.OpenAI.BuildAPIPayload
    { Model := "gpt-5-nano", Verbosity := "low", Message := "Hello",
      Properties := [("name", FieldSchema.scalar "string"),
                     ("age", FieldSchema.scalar "integer")] })

theorem leadsWith_nil_true {p : List Char} (h : leadsWith p [] = true) : p = [] := by
  cases p with
  | nil => rfl
  | cons c cs => simp [leadsWith] at h

theorem leadsWith_extend {p a : List Char} (b : List Char)
    (h : leadsWith p a = true) : leadsWith p (a ++ b) = true := by
  induction p generalizing a with
  | nil => simp [leadsWith]
  | cons c cs ih =>
      cases a with
      | nil => simp [leadsWith] at h
      | cons d ds =>
          simp only [leadsWith, Bool.and_eq_true] at h
          simp only [List.cons_append, leadsWith, Bool.and_eq_true]
          exact ⟨h.1, ih h.2⟩

theorem leadsWith_refl (l : List Char) : leadsWith l l = true := by
  induction l with
  | nil => rfl
  | cons c cs ih => simp [leadsWith, ih]

theorem hasSegment_of_leadsWith {p t : List Char} (h : leadsWith p t = true) :
    hasSegment p t = true := by
  cases t with
  | nil => simpa [hasSegment] using h
  | cons c cs => simp [hasSegment, h]

theorem hasSegment_append_right {p b : List Char} (a : List Char)
    (h : hasSegment p b = true) : hasSegment p (a ++ b) = true := by
  induction a with
  | nil => simpa using h
  | cons c cs ih => simp [hasSegment, ih]

theorem hasSegment_append_left {p a : List Char} (b : List Char)
    (h : hasSegment p a = true) : hasSegment p (a ++ b) = true := by
  induction a with
  | nil =>
      have hp : p = [] := leadsWith_nil_true (by simpa [hasSegment] using h)
      subst hp
      cases b with
      | nil => simp [hasSegment, leadsWith]
      | cons c cs => simp [hasSegment, leadsWith]
  | cons c cs ih =>
      simp only [hasSegment, Bool.or_eq_true] at h
      rcases h with h | h
      · simp only [List.cons_append, hasSegment, Bool.or_eq_true]
        exact Or.inl (leadsWith_extend b h)
      · simp only [List.cons_append, hasSegment, Bool.or_eq_true]
        exact Or.inr (ih h)

theorem strHas_append_left {a : String} (b : String) {pat : String}
    (h : strHas a pat = true) : strHas (a ++ b) pat = true := by
  simpa [strHas, String.data_append] using hasSegment_append_left b.data h

theorem strHas_append_right (a : String) {b pat : String}
    (h : strHas b pat = true) : strHas (a ++ b) pat = true := by
  simpa [strHas, String.data_append] using hasSegment_append_right a.data h

theorem strHas_refl (s : String) : strHas s s = true :=
  hasSegment_of_leadsWith (leadsWith_refl s.data)

theorem strHas_joinSep_of_mem {k : String} {l : List String} (sep : String)
    (h : k ∈ l) : strHas (joinSep sep l) k = true := by
  induction l with
  | nil => cases h
  | cons x xs ih =>
      cases xs with
      | nil =>
          rcases List.mem_singleton.mp h with rfl
          simpa [joinSep] using strHas_refl k
      | cons y ys =>
          rcases List.mem_cons.mp h with rfl | hmem
          · show strHas (k ++ sep ++ joinSep sep (y :: ys)) k = true
            exact strHas_append_left _ (strHas_append_left _ (strHas_refl k))
          · show strHas (x ++ sep ++ joinSep sep (y :: ys)) k = true
            exact strHas_append_right _ (ih hmem)

theorem lookupKey_perm {α : Type} {l l' : List (String × α)} (h : l.Perm l') :
    (l.map Prod.fst).Nodup → ∀ k, lookupKey l k = lookupKey l' k := by
  induction h with
  | nil => intro _ k; rfl
  | cons x h ih =>
      intro hnd k
      obtain ⟨kx, vx⟩ := x
      rw [List.map_cons] at hnd
      have hnd' := hnd.of_cons
      by_cases hk : kx = k
      · simp [lookupKey, hk]
      · simp [lookupKey, hk, ih hnd' k]
  | swap x y t =>
      intro hnd k
      obtain ⟨kx, vx⟩ := x
      obtain ⟨ky, vy⟩ := y
      rw [List.map_cons, List.map_cons] at hnd
      have hxy : ky ≠ kx := by
        have hm := (List.nodup_cons.mp hnd).1
        intro hcon
        exact hm (hcon ▸ List.mem_cons_self _ _)
      by_cases h1 : kx = k
      · by_cases h2 : ky = k
        · exact absurd (h2.trans h1.symm) hxy
        · simp [lookupKey, h1, h2]
      · by_cases h2 : ky = k
        · simp [lookupKey, h1, h2]
        · simp [lookupKey, h1, h2]
  | trans h₁ h₂ ih₁ ih₂ =>
      intro hnd k
      have hnd₂ : _ := ((h₁.map Prod.fst).nodup_iff).mp hnd
      exact (ih₁ hnd k).trans (ih₂ hnd₂ k)

theorem sortStrings_eq_of_perm {l l' : List String} (h : l.Perm l') :
    Provider.sortStrings l = Provider.sortStrings l' :=
  List.eq_of_perm_of_sorted
    ((List.perm_insertionSort _ l).trans (h.trans (List.perm_insertionSort _ l').symm))
    (List.sorted_insertionSort _ l) (List.sorted_insertionSort _ l')

/-- C1 (counterexample): compiling the empty shorthand with `ParseFormat`
from `src/pkg/parser/format.go` does NOT yield an empty field set — it
returns the built-in default containing a `message` field of type string,
contradicting the claim for that compiler. -/
theorem c1_empty_format_default_counterexample :
    Parser.ParseFormat "" = .ok [("message", FieldSchema.scalar "string")] ∧
    Parser.ParseFormat "" ≠ .ok ([] : Props) ∧
    lookupKey [("message", FieldSchema.scalar "string")] "message" =
      some (FieldSchema.scalar "string") :=
  ⟨rfl, fun h => List.cons_ne_nil _ _ (Except.ok.inj h), rfl⟩

/-- C1 (amended): compiling the empty shorthand succeeds with no error in
both compiler variants; the `src/pkg/parser/format.go` compiler returns the
built-in default field set containing exactly the `message` string field,
while the `src/unnamed/part_006` variant returns the empty field set. -/
theorem c1_empty_format_both_variants :
    Parser.ParseFormat "" = .ok [("message", FieldSchema.scalar "string")] ∧
    Parser.ParseFormatKeyArr "" = .ok ([] : Props) :=
  ⟨rfl, rfl⟩

/-- C2 (counterexample): the unknown-provider failure value itself does not
enumerate the known provider names — its message is just
`unknown provider: <name>` and contains none of the registered names. -/
theorem c2_unknown_provider_message_counterexample :
    Provider.New "mistral" = .error (.unknownProvider "mistral") ∧
    Provider.errorMessage (.unknownProvider "mistral") = "unknown provider: mistral" ∧
    strHas (Provider.errorMessage (.unknownProvider "mistral")) "openai" = false ∧
    strHas (Provider.errorMessage (.unknownProvider "mistral")) "anthropic" = false ∧
    strHas (Provider.errorMessage (.unknownProvider "mistral")) "gemini" = false :=
  ⟨rfl, rfl, rfl, rfl, rfl⟩

/-- C2 (amended): every unrecognized provider name makes the registry return
the distinguishable typed `ErrUnknownProvider` failure carrying that name
(no crash); the enumeration of the known provider names is printed by the
CLI layer when it recognizes this error type, not by the failure value. -/
theorem c2_unknown_provider_typed_failure (name : String)
    (h : name ∉ Provider.knownNames) :
    Provider.New name = .error (.unknownProvider name) ∧
    Provider.errorMessage (.unknownProvider name) = "unknown provider: " ++ name ∧
    strHas (Provider.cliUnknownProviderMessage name) "openai" = true ∧
    strHas (Provider.cliUnknownProviderMessage name) "openai-compat" = true ∧
    strHas (Provider.cliUnknownProviderMessage name) "anthropic" = true ∧
    strHas (Provider.cliUnknownProviderMessage name) "gemini" = true := by
  simp only [Provider.knownNames, List.mem_cons, List.not_mem_nil, or_false,
    not_or] at h
  obtain ⟨h1, h2, h3, h4, h5, h6, h7, h8, h9, h10⟩ := h
  refine ⟨?_, rfl, ?_, ?_, ?_, ?_⟩
  · unfold Provider.New
    rw [if_neg (by tauto), if_neg (by tauto), if_neg (by tauto)]
  all_goals
    exact strHas_append_right _ (by rfl)

/-- C2 (witness): the amended theorem applied to the concrete unknown
name `groq`. -/
theorem c2_unknown_provider_typed_failure_witness :
    Provider.New "groq" = .error (.unknownProvider "groq") ∧
    Provider.errorMessage (.unknownProvider "groq") = "unknown provider: " ++ "groq" ∧
    strHas (Provider.cliUnknownProviderMessage "groq") "openai" = true ∧
    strHas (Provider.cliUnknownProviderMessage "groq") "openai-compat" = true ∧
    strHas (Provider.cliUnknownProviderMessage "groq") "anthropic" = true ∧
    strHas (Provider.cliUnknownProviderMessage "groq") "gemini" = true :=
  c2_unknown_provider_typed_failure "groq" (by decide)

/-- C4: the shorthand compiler rejects each grammar violation with a
descriptive error (and, the result being an error, no field set at all):
empty key, nested arrays, extra colon, and an empty pair between commas. -/
theorem c4_parse_format_rejects_grammar_violations :
    Parser.ParseFormat ":string" = .error "empty key in format pair: :string" ∧
    Parser.ParseFormat "tags:string[][]" =
      .error "nested array types are not supported: string[][]" ∧
    Parser.ParseFormat "name:string:string" =
      .error "invalid format pair: name:string:string" ∧
    Parser.ParseFormat "name:string, ,age:integer" =
      .error "invalid format pair:  " ∧
    Parser.isErr (Parser.ParseFormat ":string") = true ∧
    Parser.isErr (Parser.ParseFormat "tags:string[][]") = true ∧
    Parser.isErr (Parser.ParseFormat "name:string:string") = true ∧
    Parser.isErr (Parser.ParseFormat "name:string, ,age:integer") = true :=
  ⟨rfl, rfl, rfl, rfl, rfl, rfl, rfl, rfl⟩

/-- C5: for the Strict-Schema (OpenAI-style) provider, the payload built for
the field set `{name:string, age:integer}` embeds a schema whose `required`
list holds exactly the names `name` and `age`, whose `additionalProperties`
is `false`, and whose `properties` is the per-field type mapping. -/
theorem c5_openai_payload_strict_schema :
    jGetPath openAISamplePayload ["text", "format", "schema", "required"] =
      some (.arr [.str "name", .str "age"]) ∧
    jGetPath openAISamplePayload ["text", "format", "schema", "additionalProperties"] =
      some (.bool false) ∧
    jGetPath openAISamplePayload ["text", "format", "schema", "properties"] =
      some (.obj [("name", .obj [("type", .str "string")]),
                  ("age", .obj [("type", .str "integer")])]) ∧
    jGetPath openAISamplePayload ["text", "format", "schema", "type"] =
      some (.str "object") ∧
    jGetPath openAISamplePayload ["text", "format", "strict"] = some (.bool true) :=
  ⟨rfl, rfl, rfl, rfl, rfl⟩

/-- C8: for the JSON-Mode (Gemini-style) provider, the rendered response
schema for the single field `tags: array of string` tags the property as
`ARRAY` with an `items` sub-schema tagged `STRING`; and for every property
map, the schema's `required` list names every field. -/
theorem c8_gemini_schema_tags_and_required :
    jGet (Provider.Gemini.buildGeminiObjectSchema [("tags", FieldSchema.array "string")])
        "properties" =
      some (.obj [("tags", .obj [("type", .str "ARRAY"),
                                 ("items", .obj [("type", .str "STRING")])])]) ∧
    jGet (Provider.Gemini.buildGeminiObjectSchema [("tags", FieldSchema.array "string")])
        "required" = some (.arr [.str "tags"]) ∧
    (∀ props : Props,
      jGet (Provider.Gemini.buildGeminiObjectSchema props) "required" =
        some (.arr (props.map fun p => JVal.str p.1))) :=
  ⟨rfl, rfl, fun _ => rfl⟩

/-- C10: the registry treats the empty provider name and the alias
`default` as the Strict-Schema (OpenAI) provider, with no error. -/
theorem c10_registry_empty_and_default_openai :
    Provider.New "" = .ok .openai ∧ Provider.New "default" = .ok .openai :=
  ⟨rfl, rfl⟩

/-- C3 (counterexample): with an empty key and empty environment, the
OpenAI provider's request builder fails with a plain formatted error, not
the distinguishable typed missing-credential failure (which the Anthropic
provider does produce). -/
theorem c3_openai_generic_error_counterexample :
    Provider.OpenAI.BuildAPIRequest [] "" ⟨"", []⟩ (fun _ => "") =
      .error (.generic "OPENAI_API_KEY is not set") ∧
    Provider.isMissingAPIKeyErr
      (Provider.OpenAI.BuildAPIRequest [] "" ⟨"", []⟩ (fun _ => "")) = false ∧
    Provider.isMissingAPIKeyErr
      (Provider.Anthropic.BuildAPIRequest [] "" ⟨"", []⟩ (fun _ => "")) = true :=
  ⟨rfl, rfl, rfl⟩

/-- C3 (amended): with an empty `APIKey` and an environment yielding no
secret, the Anthropic, Gemini and OpenAI-compat builders fail with the
distinguishable typed `MissingAPIKeyError` naming the expected environment
variable; the OpenAI builder fails with a plain error that still names the
variable. All four messages are fixed strings independent of the
environment, so no part of any secret can appear in them. -/
theorem c3_missing_credential_typed_and_named
    (payload : List (String × JVal)) (baseURL : String)
    (extras : List (String × String)) (env : Provider.Env) (model : String)
    (hA : env "ANTHROPIC_API_KEY" = "") (hG : env "GEMINI_API_KEY" = "")
    (hO : env "OPENAI_API_KEY" = "") (hm : strTrim model ≠ "") :
    Provider.Anthropic.BuildAPIRequest payload baseURL ⟨"", extras⟩ env =
      .error (.missingAPIKey "anthropic" "ANTHROPIC_API_KEY") ∧
    Provider.Gemini.BuildAPIRequest (("model", .str model) :: payload) baseURL
        ⟨"", extras⟩ env =
      .error (.missingAPIKey "gemini" "GEMINI_API_KEY") ∧
    Provider.OpenAICompat.BuildAPIRequest payload baseURL ⟨"", extras⟩ env =
      .error (.missingAPIKey "openai-compat" "OPENAI_API_KEY") ∧
    Provider.OpenAI.BuildAPIRequest payload baseURL ⟨"", extras⟩ env =
      .error (.generic "OPENAI_API_KEY is not set") ∧
    Provider.errorMessage (.missingAPIKey "anthropic" "ANTHROPIC_API_KEY") =
      "anthropic: ANTHROPIC_API_KEY is not set" ∧
    Provider.errorMessage (.missingAPIKey "gemini" "GEMINI_API_KEY") =
      "gemini: GEMINI_API_KEY is not set" ∧
    Provider.errorMessage (.missingAPIKey "openai-compat" "OPENAI_API_KEY") =
      "openai-compat: OPENAI_API_KEY is not set" ∧
    strHas (Provider.errorMessage (.missingAPIKey "anthropic" "ANTHROPIC_API_KEY"))
      "ANTHROPIC_API_KEY" = true ∧
    strHas (Provider.errorMessage (.missingAPIKey "gemini" "GEMINI_API_KEY"))
      "GEMINI_API_KEY" = true ∧
    strHas (Provider.errorMessage (.missingAPIKey "openai-compat" "OPENAI_API_KEY"))
      "OPENAI_API_KEY" = true ∧
    strHas "OPENAI_API_KEY is not set" "OPENAI_API_KEY" = true := by
  refine ⟨?_, ?_, ?_, ?_, rfl, rfl, rfl, rfl, rfl, rfl, rfl⟩
  · simp [Provider.Anthropic.BuildAPIRequest, hA]
  · simp [Provider.Gemini.BuildAPIRequest, lookupKey, Provider.Gemini.removeKey, hG, hm]
  · simp [Provider.OpenAICompat.BuildAPIRequest, hO]
  · simp [Provider.OpenAI.BuildAPIRequest, hO]

/-- C3 (witness): the amended theorem at a concrete empty environment and
the model name `m`. -/
theorem c3_missing_credential_typed_and_named_witness :
    Provider.Anthropic.BuildAPIRequest [] "" ⟨"", []⟩ (fun _ => "") =
      .error (.missingAPIKey "anthropic" "ANTHROPIC_API_KEY") ∧
    Provider.Gemini.BuildAPIRequest (("model", .str "m") :: []) ""
        ⟨"", []⟩ (fun _ => "") =
      .error (.missingAPIKey "gemini" "GEMINI_API_KEY") ∧
    Provider.OpenAICompat.BuildAPIRequest [] "" ⟨"", []⟩ (fun _ => "") =
      .error (.missingAPIKey "openai-compat" "OPENAI_API_KEY") ∧
    Provider.OpenAI.BuildAPIRequest [] "" ⟨"", []⟩ (fun _ => "") =
      .error (.generic "OPENAI_API_KEY is not set") ∧
    Provider.errorMessage (.missingAPIKey "anthropic" "ANTHROPIC_API_KEY") =
      "anthropic: ANTHROPIC_API_KEY is not set" ∧
    Provider.errorMessage (.missingAPIKey "gemini" "GEMINI_API_KEY") =
      "gemini: GEMINI_API_KEY is not set" ∧
    Provider.errorMessage (.missingAPIKey "openai-compat" "OPENAI_API_KEY") =
      "openai-compat: OPENAI_API_KEY is not set" ∧
    strHas (Provider.errorMessage (.missingAPIKey "anthropic" "ANTHROPIC_API_KEY"))
      "ANTHROPIC_API_KEY" = true ∧
    strHas (Provider.errorMessage (.missingAPIKey "gemini" "GEMINI_API_KEY"))
      "GEMINI_API_KEY" = true ∧
    strHas (Provider.errorMessage (.missingAPIKey "openai-compat" "OPENAI_API_KEY"))
      "OPENAI_API_KEY" = true ∧
    strHas "OPENAI_API_KEY is not set" "OPENAI_API_KEY" = true :=
  c3_missing_credential_typed_and_named [] "" [] (fun _ => "") "m"
    rfl rfl rfl (by decide)

/-- C6 (counterexample): a whitespace-only error value is a non-empty string
different from `"null"`, yet the gate proceeds to normal output instead of
failing — the code trims the value before testing it. -/
theorem c6_error_gate_whitespace_counterexample :
    (" " ≠ "") ∧ (" " ≠ "null") ∧
    Cmd.errorGate (some [("error", .str " ")]) "error" = .proceed ∧
    Cmd.GateOutcome.proceed ≠ Cmd.GateOutcome.failDiagnostic " " := by
  decide

/-- C6 (amended): the gate fails with the trimmed error text exactly when
the configured error field holds a string whose whitespace-trimmed value is
non-empty and different from `"null"`; an absent field, a present non-string
value, or a trimmed value that is empty or `"null"`, proceeds to normal
output. -/
theorem c6_error_gate_trimmed_semantics
    (obj : List (String × JVal)) (k s : String) (v : JVal) :
    (lookupKey obj k = some (.str s) → strTrim s ≠ "" → strTrim s ≠ "null" →
      Cmd.errorGate (some obj) k = .failDiagnostic (strTrim s)) ∧
    (lookupKey obj k = some (.str s) → (strTrim s = "" ∨ strTrim s = "null") →
      Cmd.errorGate (some obj) k = .proceed) ∧
    (lookupKey obj k = some v → (∀ w, v ≠ .str w) →
      Cmd.errorGate (some obj) k = .proceed) ∧
    (lookupKey obj k = none → Cmd.errorGate (some obj) k = .proceed) := by
  refine ⟨?_, ?_, ?_, ?_⟩
  · intro h h1 h2
    simp only [Cmd.errorGate]
    rw [h]
    exact if_pos ⟨h1, h2⟩
  · intro h hcase
    simp only [Cmd.errorGate]
    rw [h]
    exact if_neg (by rcases hcase with h' | h' <;> simp [h'])
  · intro h hnotstr
    simp only [Cmd.errorGate]
    rw [h]
    cases v with
    | str w => exact absurd rfl (hnotstr w)
    | num n => rfl
    | bool b => rfl
    | null => rfl
    | arr xs => rfl
    | obj fs => rfl
  · intro h
    simp only [Cmd.errorGate]
    rw [h]

/-- C6 (witness): the spec's own scenario — response object with an empty
`message` and `error = "rate limited"` — makes the gate fail and route
`rate limited` to the diagnostic stream; a non-string error value (`5`)
proceeds to normal output. -/
theorem c6_error_gate_trimmed_semantics_witness :
    Cmd.errorGate (some [("message", .str ""), ("error", .str "rate limited")])
      "error" = .failDiagnostic (strTrim "rate limited") ∧
    Cmd.errorGate (some [("error", .num 5)]) "error" = .proceed :=
  ⟨(c6_error_gate_trimmed_semantics
      [("message", .str ""), ("error", .str "rate limited")]
      "error" "rate limited" .null).1 rfl (by decide) (by decide),
   (c6_error_gate_trimmed_semantics [("error", .num 5)] "error" "" (.num 5)).2.2.1
      rfl (fun _ h => JVal.noConfusion h)⟩

/-- C7: single-key extraction — a decode failure is the distinguishable
structured-output-required failure; a missing key is the distinguishable
key-not-found failure whose message names the key; a string value is
emitted verbatim (in particular without added quotes); every other JSON
value is re-serialized compactly via `json.Marshal`. -/
theorem c7_only_extraction_semantics
    (obj : List (String × JVal)) (k s : String) (v : JVal) :
    (Cmd.onlyExtract none k = .errNotJson) ∧
    (lookupKey obj k = none → Cmd.onlyExtract (some obj) k = .errKeyNotFound k) ∧
    (lookupKey obj k = some (.str s) → Cmd.onlyExtract (some obj) k = .emit s) ∧
    (lookupKey obj k = some v → (∀ w, v ≠ .str w) →
      Cmd.onlyExtract (some obj) k = .emit (jsonMarshal v)) ∧
    Cmd.onlyKeyNotFoundMessage k = "key not found: " ++ k ∧
    strHas (Cmd.onlyKeyNotFoundMessage k) k = true := by
  refine ⟨rfl, ?_, ?_, ?_, rfl, ?_⟩
  · intro h
    simp only [Cmd.onlyExtract]
    rw [h]
  · intro h
    simp only [Cmd.onlyExtract]
    rw [h]
  · intro h hnotstr
    simp only [Cmd.onlyExtract]
    rw [h]
    cases v with
    | str w => exact absurd rfl (hnotstr w)
    | num n => rfl
    | bool b => rfl
    | null => rfl
    | arr xs => rfl
    | obj fs => rfl
  · exact strHas_append_right _ (strHas_refl k)

/-- C7 (witness): the spec's end-to-end scenario — extracting `command`
from the decoded object emits `find . -name "*.go"` verbatim with no added
quotes, and extracting a non-string value re-serializes it compactly. -/
theorem c7_only_extraction_semantics_witness :
    Cmd.onlyExtract
      (some [("command", .str "find . -name \"*.go\""), ("explanation", .str "x")])
      "command" = .emit "find . -name \"*.go\"" ∧
    Cmd.onlyExtract (some [("files", .arr [.str "a.go", .str "b.go"])]) "files" =
      .emit (jsonMarshal (.arr [.str "a.go", .str "b.go"])) ∧
    jsonMarshal (JVal.arr [.str "a.go", .str "b.go"]) = "[\"a.go\",\"b.go\"]" ∧
    Cmd.onlyExtract (some [("command", .str "c")]) "missing" =
      .errKeyNotFound "missing" :=
  ⟨(c7_only_extraction_semantics
      [("command", .str "find . -name \"*.go\""), ("explanation", .str "x")]
      "command" "find . -name \"*.go\"" .null).2.2.1 rfl,
   (c7_only_extraction_semantics [("files", .arr [.str "a.go", .str "b.go"])]
      "files" "" (.arr [.str "a.go", .str "b.go"])).2.2.2.1 rfl
      (fun _ h => JVal.noConfusion h),
   rfl,
   (c7_only_extraction_semantics [("command", .str "c")] "missing" "" .null).2.1 rfl⟩

theorem systemHint_eq_of_perm {props props' : Props} (h : props.Perm props')
    (hnd : (props.map Prod.fst).Nodup) :
    Provider.Anthropic.systemHint props = Provider.Anthropic.systemHint props' := by
  have hl : ∀ k, lookupKey props k = lookupKey props' k := lookupKey_perm h hnd
  have hkeys : Provider.sortStrings (props.map Prod.fst) =
      Provider.sortStrings (props'.map Prod.fst) :=
    sortStrings_eq_of_perm (h.map Prod.fst)
  simp only [Provider.Anthropic.systemHint, hkeys, hl]

theorem anthropic_payload_system (opts : Provider.Options)
    (hne : opts.Properties ≠ []) :
    lookupKey (Provider.Anthropic.BuildAPIPayload opts) "system" =
      some (.str ((if strTrim opts.Instructions ≠ "" then opts.Instructions ++ "\n\n" else "") ++
        Provider.Anthropic.systemHint opts.Properties)) := by
  by_cases hi : strTrim opts.Instructions = ""
  · simp only [Provider.Anthropic.BuildAPIPayload]
    rw [if_neg (not_not_intro hi), if_pos hne, if_neg (not_not_intro hi)]
    rfl
  · simp only [Provider.Anthropic.BuildAPIPayload]
    rw [if_pos hi, if_pos hne]
    simp only [lookupKey, upsert]
    simp [hi]
    rfl

theorem strHas_systemHint {props : Props} {k : String}
    (hk : k ∈ Provider.sortStrings (props.map Prod.fst)) :
    strHas (Provider.Anthropic.systemHint props) k = true := by
  simp only [Provider.Anthropic.systemHint]
  exact strHas_append_left _ (strHas_append_left _
    (strHas_append_right _ (strHas_joinSep_of_mem _ hk)))

theorem strHas_systemHint_join (props : Props) :
    strHas (Provider.Anthropic.systemHint props)
      (joinSep ", " (Provider.sortStrings (props.map Prod.fst))) = true := by
  simp only [Provider.Anthropic.systemHint]
  exact strHas_append_left _ (strHas_append_left _
    (strHas_append_right _ (strHas_refl _)))

/-- C9: for the Natural-Language-Schema (Anthropic-style) provider with a
non-empty field set, the payload's system instruction contains every field
name; the names appear through the sorted key list (which is a sorted
permutation of the field names and occurs verbatim in the text); and the
payload is unchanged under any permutation of the supplied field list. -/
theorem c9_anthropic_system_sorted_fields
    (opts : Provider.Options) (props' : Props)
    (hne : opts.Properties ≠ [])
    (hperm : opts.Properties.Perm props')
    (hnd : (opts.Properties.map Prod.fst).Nodup) :
    (∃ sys : String,
      lookupKey (Provider.Anthropic.BuildAPIPayload opts) "system" = some (.str sys) ∧
      (∀ k ∈ opts.Properties.map Prod.fst, strHas sys k = true) ∧
      strHas sys (joinSep ", " (Provider.sortStrings (opts.Properties.map Prod.fst))) = true ∧
      List.Sorted (· ≤ ·) (Provider.sortStrings (opts.Properties.map Prod.fst)) ∧
      (Provider.sortStrings (opts.Properties.map Prod.fst)).Perm
        (opts.Properties.map Prod.fst)) ∧
    Provider.Anthropic.BuildAPIPayload { opts with Properties := props' } =
      Provider.Anthropic.BuildAPIPayload opts := by
  constructor
  · refine ⟨_, anthropic_payload_system opts hne, ?_, ?_, ?_, ?_⟩
    · intro k hk
      have hk' : k ∈ Provider.sortStrings (opts.Properties.map Prod.fst) :=
        ((List.perm_insertionSort (· ≤ ·) _).mem_iff).mpr hk
      exact strHas_append_right _ (strHas_systemHint hk')
    · exact strHas_append_right _ (strHas_systemHint_join _)
    · exact List.sorted_insertionSort _ _
    · exact List.perm_insertionSort _ _
  · have hne' : props' ≠ [] := by
      intro hnil
      exact hne (List.Perm.eq_nil (hnil ▸ hperm))
    have hh : Provider.Anthropic.systemHint props' =
        Provider.Anthropic.systemHint opts.Properties :=
      (systemHint_eq_of_perm hperm hnd).symm
    simp only [Provider.Anthropic.BuildAPIPayload, hh]
    rw [if_pos hne', if_pos hne]

/-- C9 (witness): the theorem applied to the concrete field set
`{b:integer, a:string[]}` supplied in reverse-sorted order, permuted into
sorted order. -/
theorem c9_anthropic_system_sorted_fields_witness :
    (∃ sys : String,
      lookupKey (Provider.Anthropic.BuildAPIPayload
        { Model := "claude-3-5-haiku-latest", Message := "Hello",
          Properties := [("b", FieldSchema.scalar "integer"),
                         ("a", FieldSchema.array "string")] }) "system" =
        some (.str sys) ∧
      (∀ k ∈ ([("b", FieldSchema.scalar "integer"),
               ("a", FieldSchema.array "string")] : Props).map Prod.fst,
        strHas sys k = true) ∧
      strHas sys (joinSep ", " (Provider.sortStrings
        (([("b", FieldSchema.scalar "integer"),
           ("a", FieldSchema.array "string")] : Props).map Prod.fst))) = true ∧
      List.Sorted (· ≤ ·) (Provider.sortStrings
        (([("b", FieldSchema.scalar "integer"),
           ("a", FieldSchema.array "string")] : Props).map Prod.fst)) ∧
      (Provider.sortStrings
        (([("b", FieldSchema.scalar "integer"),
           ("a", FieldSchema.array "string")] : Props).map Prod.fst)).Perm
        (([("b", FieldSchema.scalar "integer"),
           ("a", FieldSchema.array "string")] : Props).map Prod.fst)) ∧
    Provider.Anthropic.BuildAPIPayload
      { ({ Model := "claude-3-5-haiku-latest", Message := "Hello",
           Properties := [("b", FieldSchema.scalar "integer"),
                          ("a", FieldSchema.array "string")] } : Provider.Options) with
        Properties := [("a", FieldSchema.array "string"),
                       ("b", FieldSchema.scalar "integer")] } =
    Provider.Anthropic.BuildAPIPayload
      { Model := "claude-3-5-haiku-latest", Message := "Hello",
        Properties := [("b", FieldSchema.scalar "integer"),
                       ("a", FieldSchema.array "string")] } :=
  c9_anthropic_system_sorted_fields
    { Model := "claude-3-5-haiku-latest", Message := "Hello",
      Properties := [("b", FieldSchema.scalar "integer"),
                     ("a", FieldSchema.array "string")] }
    [("a", FieldSchema.array "string"), ("b", FieldSchema.scalar "integer")]
    (by decide) (List.Perm.swap _ _ _) (by decide)
